import Mathlib

/-!
Shallow embedding of the account-store subsystem of `accounts.py` (KTP
repository): JSON-lines document codec, password hashing/verification
wrappers, and the account operations `find_account`, `create_account`,
`set_activated`, `verify_login`.

Conventions of the embedding:
* Python JSON values (the output of `json.loads`) are modelled by `JVal`;
  JSON numbers are restricted to integers (all numeric fields used by the
  account store are integers).
* Python exceptions are modelled with `Except Unit` (an operation that the
  source lets raise returns `.error ()`); a `try/except` that swallows the
  exception turns the `.error` case into the handler's result.
* External collaborators are parameters: the PBKDF2 derivation
  `hashlib.pbkdf2_hmac("sha256", pw, salt, iters, dklen=DKLEN)` is a
  function parameter `kdf : String → List Nat → Nat → List Nat` (the
  `"sha256"` and `dklen` arguments are fixed at both call sites of the
  source, so they are baked into the parameter); `json.dumps` /
  `json.loads` are parameters `dumps` / `loads`; the OneDrive blob store
  is modelled by the row lists its reads return and a boolean write
  outcome; `secrets.token_bytes(16)` and `time.strftime` are the
  parameters `salt` and `ts`.
* Bytes are `Nat` (meaningful values `< 256`); text is `String`.
-/

/-- Python JSON value as produced by `json.loads` (numbers restricted to
integers; the account document only ever stores integers). -/
inductive JVal where
  | null : JVal
  | bool (b : Bool) : JVal
  | num (n : Int) : JVal
  | str (s : String) : JVal
  | arr (elems : List JVal) : JVal
  | obj (fields : List (String × JVal)) : JVal

/-- Python `d.get(key, default)` on an association list of fields (first
binding of the key wins, mirroring dict-key uniqueness). -/
def jGetD (fields : List (String × JVal)) (key : String) (d : JVal) : JVal :=
  match fields with
  | [] => d
  | (k, v) :: rest => if k = key then v else jGetD rest key d

/-- Python `d[key] = v` on an association list of fields: replace the first
binding if the key is present, otherwise append a new binding. -/
def jSetKey (fields : List (String × JVal)) (key : String) (v : JVal) : List (String × JVal) :=
  match fields with
  | [] => [(key, v)]
  | (k, w) :: rest => if k = key then (k, v) :: rest else (k, w) :: jSetKey rest key v

/-- Dict assignment lifted to `JVal`; on a non-object it is unused by the
embedding (the source only assigns into dicts it has already matched on). -/
def pySet (r : JVal) (key : String) (v : JVal) : JVal :=
  match r with
  | .obj fs => .obj (jSetKey fs key v)
  | other => other

/-- Python `v == s` for a JSON value against a string: equal only when `v`
is that string (Python equality across distinct JSON types is `False`). -/
def jvalIsStrEq (v : JVal) (s : String) : Bool :=
  match v with
  | .str t => t == s
  | _ => false

/-- Python truthiness `bool(v)` of a JSON value. -/
def pyTruthy : JVal → Bool
  | .null => false
  | .bool b => b
  | .num n => n != 0
  | .str s => s != ""
  | .arr xs => !xs.isEmpty
  | .obj fs => !fs.isEmpty

/-- Line-boundary characters of Python `str.splitlines` (the common
Basic-Multilingual-Plane set used by CPython). -/
def isLineBreak (c : Char) : Bool :=
  c == '\n' || c == '\r' || c == '\x0b' || c == '\x0c' ||
  c == '\x1c' || c == '\x1d' || c == '\x1e' || c == '\x85' ||
  c == '\u2028' || c == '\u2029'

/-- Whitespace characters of Python `str.strip()` / `str.isspace()`
(`Py_UNICODE_ISSPACE`): every line-boundary character, plus space, tab,
the unit separator, no-break space, Ogham space mark, the U+2000 series,
narrow no-break space, medium mathematical space and ideographic space. -/
def isPySpace (c : Char) : Bool :=
  isLineBreak c || c == ' ' || c == '\t' || c == '\x1f' || c == '\xa0' ||
  c == '\u1680' || c == '\u2000' || c == '\u2001' || c == '\u2002' ||
  c == '\u2003' || c == '\u2004' || c == '\u2005' || c == '\u2006' ||
  c == '\u2007' || c == '\u2008' || c == '\u2009' || c == '\u200a' ||
  c == '\u202f' || c == '\u205f' || c == '\u3000'

/-- Python `str.strip()` on a character list: drop whitespace from both
ends. -/
def pyStripL (l : List Char) : List Char :=
  ((l.dropWhile isPySpace).reverse.dropWhile isPySpace).reverse

/-- Python `s.strip()`. -/
def pyStrip (s : String) : String := String.mk (pyStripL s.data)

/-- Python `s.lower()` (ASCII case mapping; account emails are ASCII). -/
def pyLower (s : String) : String := String.mk (s.data.map Char.toLower)

/-- Numeric value of a digit string (most significant digit first). -/
def digitsVal (l : List Char) : Nat :=
  l.foldl (fun acc c => acc * 10 + (c.toNat - '0'.toNat)) 0

/-- Start codepoints of the length-10 decimal-digit (`Nd`) ranges of
Unicode 15.0, the table CPython's `int()` accepts digits from. -/
def ND_RANGES : List Nat :=
  [0x30, 0x660, 0x6F0, 0x7C0, 0x966, 0x9E6, 0xA66, 0xAE6, 0xB66, 0xBE6,
   0xC66, 0xCE6, 0xD66, 0xDE6, 0xE50, 0xED0, 0xF20, 0x1040, 0x1090, 0x17E0,
   0x1810, 0x1946, 0x19D0, 0x1A80, 0x1A90, 0x1B50, 0x1BB0, 0x1C40, 0x1C50,
   0xA620, 0xA8D0, 0xA900, 0xA9D0, 0xA9F0, 0xAA50, 0xABF0, 0xFF10,
   0x104A0, 0x10D30, 0x11066, 0x110F0, 0x11136, 0x111D0, 0x112F0, 0x11450,
   0x114D0, 0x11650, 0x116C0, 0x11730, 0x118E0, 0x11950, 0x11C50, 0x11D50,
   0x11DA0, 0x11F50, 0x16A60, 0x16AC0, 0x16B50, 0x1D7CE, 0x1D7D8, 0x1D7E2,
   0x1D7EC, 0x1D7F6, 0x1E140, 0x1E2F0, 0x1E4F0, 0x1E950, 0x1FBF0]

/-- Decimal value of a Unicode digit character accepted by Python
`int()`, `none` for a non-digit. -/
def pyDigitVal (c : Char) : Option Nat :=
  (ND_RANGES.find? (fun b => decide (b ≤ c.toNat ∧ c.toNat ≤ b + 9))).map
    (fun b => c.toNat - b)

/-- Digit tail of a Python integer literal: digits with single underscore
separators allowed only between digits; accumulates the value. -/
def parseDigitsAux : List Char → Nat → Option Nat
  | [], acc => some acc
  | c :: rest, acc =>
      if c = '_' then
        match rest with
        | c2 :: rest2 =>
            match pyDigitVal c2 with
            | some d => parseDigitsAux rest2 (acc * 10 + d)
            | none => none
        | [] => none
      else
        match pyDigitVal c with
        | some d => parseDigitsAux rest (acc * 10 + d)
        | none => none

/-- Unsigned digit run of a Python integer literal: must start with a
digit (no leading underscore). -/
def parsePyIntCore (l : List Char) : Option Nat :=
  match l with
  | [] => none
  | c :: rest =>
      match pyDigitVal c with
      | some d => parseDigitsAux rest d
      | none => none

/-- Python `int(s)` for strings: strip whitespace, one optional ASCII
sign, then a nonempty underscore-separated run of Unicode decimal digits;
`none` models the `ValueError` raised on anything else. (CPython's
digit-count conversion limit, default 4300, is not modelled; it only
makes `int()` raise on more strings, and no claim's hypotheses reach
it.) -/
def parsePyInt (s : String) : Option Int :=
  match pyStripL s.data with
  | [] => none
  | c :: ds =>
      if c = '+' then (parsePyIntCore ds).map (fun n => (n : Int))
      else if c = '-' then (parsePyIntCore ds).map (fun n => -((n : Nat) : Int))
      else (parsePyIntCore (c :: ds)).map (fun n => (n : Int))

/-- Python `int(v)` on a JSON value: integers pass through, booleans are
0/1, numeric strings parse; `none` models the `TypeError`/`ValueError`
raised on `None`, lists, dicts and non-numeric strings. -/
def pyInt (v : JVal) : Option Int :=
  match v with
  | .num n => some n
  | .bool b => some (if b then 1 else 0)
  | .str s => parsePyInt s
  | _ => none

/-- URL-safe base64 alphabet (`base64.urlsafe_b64encode`). -/
def B64_ALPHABET : List Char :=
  "ABCDEFGHIJKLMNOPQRSTUVWXYZabcdefghijklmnopqrstuvwxyz0123456789-_".data

/-- Character of a 6-bit value in the URL-safe alphabet. -/
def sextetChar (n : Nat) : Char := B64_ALPHABET.getD n 'A'

/-- Standard base64 alphabet, the table `binascii.a2b_base64` accepts
data characters from. -/
def B64_STD : List Char :=
  "ABCDEFGHIJKLMNOPQRSTUVWXYZabcdefghijklmnopqrstuvwxyz0123456789+/".data

/-- Six-bit value of a data character as `urlsafe_b64decode` sees it: the
URL-safe translation (`-` to `+`, `_` to `/`) followed by the standard
table; `none` for a character outside both alphabets. -/
def b64charVal (c : Char) : Option Nat :=
  if c = '-' then some 62
  else if c = '_' then some 63
  else B64_STD.findIdx? (fun a => a == c)

/-- Bytes to 6-bit groups, big-endian within each 3-byte block; a trailing
block of 1 or 2 bytes yields 2 or 3 sextets (the unpadded tail of
base64). -/
def toSextets : List Nat → List Nat
  | [] => []
  | [b1] => [b1 / 4, b1 % 4 * 16]
  | [b1, b2] => [b1 / 4, b1 % 4 * 16 + b2 / 16, b2 % 16 * 4]
  | b1 :: b2 :: b3 :: rest =>
      b1 / 4 :: (b1 % 4 * 16 + b2 / 16) :: (b2 % 16 * 4 + b3 / 64) :: b3 % 64 :: toSextets rest

/-- CPython `binascii.a2b_base64` in non-strict mode (the mode
`base64.b64decode` uses), on the translated input: characters outside the
alphabet are discarded; a data character advances the quad position,
emitting a byte at positions 1, 2 and 3; a `=` at quad position 2 or 3
counts pad characters and ends decoding once the quad is completed by
padding (a `=` at position 0 or 1 is ignored); input ending at quad
position 1, 2 or 3 raises `binascii.Error` (`none`). -/
def a2bBase64 : List Char → Nat → Nat → Nat → Option (List Nat)
  | [], qp, _, _ => if qp = 0 then some [] else none
  | c :: rest, qp, left, pads =>
      if c = '=' then
        if 2 ≤ qp then
          if 4 ≤ qp + (pads + 1) then some []
          else a2bBase64 rest qp left (pads + 1)
        else a2bBase64 rest qp left pads
      else
        match b64charVal c with
        | none => a2bBase64 rest qp left pads
        | some v =>
            match qp with
            | 0 => a2bBase64 rest 1 v 0
            | 1 => (a2bBase64 rest 2 (v % 16) 0).map (fun bs => (left * 4 + v / 16) :: bs)
            | 2 => (a2bBase64 rest 3 (v % 4) 0).map (fun bs => (left * 16 + v / 4) :: bs)
            | _ => (a2bBase64 rest 0 0 0).map (fun bs => (left * 64 + v) :: bs)

/-- Source `_b64encode_nopad`: `base64.urlsafe_b64encode(b)` with the `=`
padding stripped. -/
def b64encodeNopad (bs : List Nat) : String :=
  String.mk ((toSextets bs).map sextetChar)

/-- Source `_b64decode_nopad`: append `"=" * (-len(s) % 4)` and run
`base64.urlsafe_b64decode`; `none` models the exceptions — the
`ValueError` of the internal `s.encode("ascii")` on any non-ASCII
character, and the `binascii.Error` of the non-strict decoder. -/
def b64decodeNopad (s : String) : Option (List Nat) :=
  if s.data.all (fun c => decide (c.toNat ≤ 127)) then
    a2bBase64 (s.data ++ List.replicate ((4 - s.data.length % 4) % 4) '=') 0 0 0
  else none

/-- Python `"\n".join(lines)`. -/
def joinLines : List String → String
  | [] => ""
  | [s] => s
  | s :: rest => s ++ "\n" ++ joinLines rest

/-- Worker of `str.splitlines`: accumulate the current line in reverse,
emit it at each boundary character, treating `"\r\n"` as a single
boundary (a lone `"\r"` is also a boundary), and emit a final
unterminated line only if it is nonempty. -/
def splitLinesAux : List Char → List Char → List (List Char)
  | [], acc => if acc.isEmpty then [] else [acc.reverse]
  | [c], acc =>
      if isLineBreak c then [acc.reverse]
      else [(c :: acc).reverse]
  | c :: c2 :: rest, acc =>
      if isLineBreak c then
        if c = '\r' then
          if c2 = '\n' then acc.reverse :: splitLinesAux rest []
          else acc.reverse :: splitLinesAux (c2 :: rest) []
        else acc.reverse :: splitLinesAux (c2 :: rest) []
      else splitLinesAux (c2 :: rest) (c :: acc)

/-- Python `s.splitlines()`. -/
def pySplitlines (s : String) : List String :=
  (splitLinesAux s.data []).map (fun l => String.mk l)

/-- Loop body of source `_read_jsonl` (lines 66–79): skip a line whose
`strip()` is empty, parse the raw line with `json.loads`, and on a
`JSONDecodeError` skip the line and continue. -/
def readLines (loads : String → Option JVal) : List String → List JVal
  | [] => []
  | line :: rest =>
      if pyStrip line = "" then readLines loads rest
      else
        match loads line with
        | some v => v :: readLines loads rest
        | none => readLines loads rest

/-- Source `_read_jsonl` on the downloaded text: empty download and
whitespace-only text short-circuit to `[]`, otherwise every line of
`text.splitlines()` is processed by the loop. -/
def read_jsonl_text (loads : String → Option JVal) (text : String) : List JVal :=
  if text = "" then []
  else if pyStrip text = "" then []
  else readLines loads (pySplitlines text)

/-- Source `_write_jsonl` document body:
`"\n".join(json.dumps(r) for r in rows)`. -/
def write_jsonl_text (dumps : JVal → String) (rows : List JVal) : String :=
  joinLines (rows.map dumps)

/-- Source constant `ALGO`. -/
def ALGO : String := "pbkdf2-sha256"

/-- Source constant `ITERATIONS`. -/
def ITERATIONS : Nat := 310000

/-- Source constant `DKLEN` (baked into the `kdf` parameter at both of its
call sites, as in the source). -/
def DKLEN : Nat := 32

/-- Source sleep between lookup attempts, in milliseconds
(`_time.sleep(0.6)`, i.e. 0.6 seconds = 600 ms). -/
def SLEEP_MS : Nat := 600

/-- Source `_hash_password` with the externally sampled salt
(`secrets.token_bytes(16)`) passed in: build the credential record with
the current defaults and unpadded URL-safe base64 of salt and derived
key. -/
def hash_password (kdf : String → List Nat → Nat → List Nat)
    (salt : List Nat) (password : String) : JVal :=
  .obj [("algo", .str ALGO),
        ("iter", .num (ITERATIONS : Int)),
        ("salt", .str (b64encodeNopad salt)),
        ("key", .str (b64encodeNopad (kdf password salt ITERATIONS)))]

/-- Source `_verify_password`. The whole body runs under
`try/except: return False`, so every raising step returns `false` here:
a non-dict record (`record.get` raises `AttributeError`), a non-numeric or
missing `iter` (`int()` raises), a non-string or undecodable `salt`
(`urlsafe_b64decode` raises), and a non-positive iteration count
(`pbkdf2_hmac` raises `ValueError`). The final comparison is Python
`calc == stored_key` (the `hashlib.compare_digest` call raises
`AttributeError`/`TypeError` into the inner handler, whose fallback is
`==`): string equality against `calc`, `false` for any non-string stored
key. The `algo` check happens after `int(record.get("iter"))`, exactly as
in the source. -/
def verify_password (kdf : String → List Nat → Nat → List Nat)
    (password : String) (record : JVal) : Bool :=
  match record with
  | .obj fs =>
      match pyInt (jGetD fs "iter" .null) with
      | none => false
      | some iters =>
          if !(jvalIsStrEq (jGetD fs "algo" .null) ALGO) then false
          else
            match jGetD fs "salt" .null with
            | .str salt_b64 =>
                match b64decodeNopad salt_b64 with
                | none => false
                | some salt =>
                    if iters < 1 then false
                    else
                      let calcKey := b64encodeNopad (kdf password salt iters.toNat)
                      match jGetD fs "key" .null with
                      | .str stored => stored == calcKey
                      | _ => false
            | _ => false
  | _ => false

/-- Row-email access of `find_account` and the `create_account` post-read:
`r.get("email", "").strip().lower()`; `.error ()` models the
`AttributeError` raised when the row is not a dict or the field is not a
string. -/
def pyEmailNorm (r : JVal) : Except Unit String :=
  match r with
  | .obj fs =>
      match jGetD fs "email" (.str "") with
      | .str s => .ok (pyLower (pyStrip s))
      | _ => .error ()
  | _ => .error ()

/-- Row-email access of `create_account`'s duplicate check and of
`set_activated`/`record_login`: `r.get("email", "").lower()` (no strip). -/
def pyEmailLower (r : JVal) : Except Unit String :=
  match r with
  | .obj fs =>
      match jGetD fs "email" (.str "") with
      | .str s => .ok (pyLower s)
      | _ => .error ()
  | _ => .error ()

/-- Scan of one fetched row list inside `find_account`: return the first
row whose normalized email equals the (already normalized) target,
propagating the exception of a bad row reached before any match. -/
def scanFind (e : String) : List JVal → Except Unit (Option JVal)
  | [] => .ok none
  | r :: rest =>
      match pyEmailNorm r with
      | .error u => .error u
      | .ok s => if s = e then .ok (some r) else scanFind e rest

/-- Retry loop of `find_account`: at each attempt fetch (`reads attempt`)
and scan; on a miss sleep `SLEEP_MS` and retry. Returns the result, the
number of fetch-and-scan attempts performed, and the list of sleeps
performed (in ms). -/
def find_account_go (reads : Nat → List JVal) (e : String) :
    Nat → Nat → List Nat → Except Unit (Option JVal) × Nat × List Nat
  | attempt, 0, sleeps => (.ok none, attempt, sleeps)
  | attempt, fuel + 1, sleeps =>
      match scanFind e (reads attempt) with
      | .error u => (.error u, attempt + 1, sleeps)
      | .ok (some r) => (.ok (some r), attempt + 1, sleeps)
      | .ok none => find_account_go reads e (attempt + 1) fuel (sleeps ++ [SLEEP_MS])

/-- Source `find_account`: normalize the email with
`(email or "").strip().lower()` and run the 3-attempt retry loop; the
eventually consistent store is modelled by `reads`, the row list each
attempt's `_read_jsonl` returns. -/
def find_account (reads : Nat → List JVal) (email : String) :
    Except Unit (Option JVal) × Nat × List Nat :=
  find_account_go reads (pyLower (pyStrip email)) 0 3 []

/-- Duplicate check of `create_account`:
`any(r.get("email", "").lower() == email for r in rows)`, lazily — a bad
row after the first match is never reached. -/
def anyDupLower (e : String) : List JVal → Except Unit Bool
  | [] => .ok false
  | r :: rest =>
      match pyEmailLower r with
      | .error u => .error u
      | .ok s => if s = e then .ok true else anyDupLower e rest

/-- Membership check of `create_account`'s post-write confirmation read:
`any(r.get("email", "").strip().lower() == email for r in new_rows)`. -/
def anyFindNorm (e : String) : List JVal → Except Unit Bool
  | [] => .ok false
  | r :: rest =>
      match pyEmailNorm r with
      | .error u => .error u
      | .ok s => if s = e then .ok true else anyFindNorm e rest

/-- Post-write confirmation read of `create_account` (lines 244–249): the
whole block sits in a `try/except` that only logs, so an error during the
re-read or the scan yields `none` and the computed `found` flag is
discarded either way. -/
def post_read_found (read2 : Option (List JVal)) (e : String) : Option Bool :=
  match read2 with
  | none => none
  | some rows =>
      match anyFindNorm e rows with
      | .error _ => none
      | .ok b => some b

/-- Record appended by `create_account` (lines 225–233). -/
def mkNewRecord (e : String) (kdf : String → List Nat → Nat → List Nat)
    (salt : List Nat) (password : String) (ts : String)
    (product_key : Option String) (activated : Bool) : JVal :=
  .obj [("email", .str e),
        ("password", hash_password kdf salt password),
        ("created_at", .str ts),
        ("activated", .bool activated),
        ("product_key", .str (product_key.getD "")),
        ("last_login_at", .str ""),
        ("role", .str "user")]

/-- Source `create_account`. Store behaviour is explicit: `read1` is the
row list of the initial `_read_jsonl`, `writeOk` the outcome of
`_write_jsonl` (whose exception is caught and turned into `return False`),
`read2` the post-write confirmation read (`none` = that read raised).
The result pairs the returned boolean with the remote document content
after the call (`some newRows` exactly when the PUT succeeded; on a failed
PUT the old object remains). `ts` is `time.strftime(...)`, `salt` the salt
sampled inside `_hash_password`. -/
def create_account (read1 : List JVal) (writeOk : Bool) (read2 : Option (List JVal))
    (email password : String) (product_key : Option String) (activated : Bool)
    (kdf : String → List Nat → Nat → List Nat) (salt : List Nat) (ts : String) :
    Except Unit (Bool × Option (List JVal)) :=
  let e := pyLower (pyStrip email)
  match anyDupLower e read1 with
  | .error u => .error u
  | .ok true => .ok (false, none)
  | .ok false =>
      let newRows := read1 ++ [mkNewRecord e kdf salt password ts product_key activated]
      if writeOk then
        let _found := post_read_found read2 e
        .ok (true, some newRows)
      else
        .ok (false, none)

/-- Record update performed by `set_activated` on the matched row:
`r["activated"] = True` then `r["product_key"] = product_key`. -/
def activateRecord (r : JVal) (pk : String) : JVal :=
  pySet (pySet r "activated" (.bool true)) "product_key" (.str pk)

/-- Loop of `set_activated`: update the first row whose lowercased email
matches and `break` (rows after the match are neither changed nor
examined); rows before the match can raise on a malformed row. -/
def set_activated_rows (e pk : String) : List JVal → Except Unit (List JVal)
  | [] => .ok []
  | r :: rest =>
      match pyEmailLower r with
      | .error u => .error u
      | .ok s =>
          if s = e then .ok (activateRecord r pk :: rest)
          else
            match set_activated_rows e pk rest with
            | .error u => .error u
            | .ok rest2 => .ok (r :: rest2)

/-- Source `set_activated`: normalize the email, run the update loop over
the fetched rows, and write the resulting document back unconditionally
(the `.ok` value is exactly the row list passed to `_write_jsonl`). -/
def set_activated (rows : List JVal) (email product_key : String) :
    Except Unit (List JVal) :=
  set_activated_rows (pyLower (pyStrip email)) product_key rows

/-- Source `verify_login`: `find_account`, then `_verify_password` against
`r.get("password", {})`; denial is `(False, False, "")` both when the
account is absent and when the password fails, otherwise
`(True, bool(r.get("activated", False)), r.get("product_key", ""))`. -/
def verify_login (reads : Nat → List JVal)
    (kdf : String → List Nat → Nat → List Nat)
    (email password : String) : Except Unit (Bool × Bool × JVal) :=
  match (find_account reads email).1 with
  | .error u => .error u
  | .ok none => .ok (false, false, .str "")
  | .ok (some r) =>
      match r with
      | .obj fs =>
          let pwrecord := jGetD fs "password" (.obj [])
          if verify_password kdf password pwrecord then
            .ok (true, pyTruthy (jGetD fs "activated" (.bool false)),
                 jGetD fs "product_key" (.str ""))
          else
            .ok (false, false, .str "")
      | _ => .error ()

/-- Deterministic stand-in key-derivation function used by concrete
witnesses (any function of password, salt and iteration count works; the
real PBKDF2 is opaque to the verified properties). -/
def testKdf (password : String) (salt : List Nat) (iters : Nat) : List Nat :=
  (List.range DKLEN).map
    (fun i => (password.length * 31 + salt.foldl (fun a b => a + b) 0 + iters + i) % 256)

/-- Malformation cases of a credential record, as enumerated by the
specification for `_verify_password`: a non-dict value, a missing or
non-numeric iteration count, a wrong or missing algorithm tag, an invalid
(or non-string, including missing) base64 salt, an invalid (or
non-string, including missing) base64 key. -/
def MalformedCred (r : JVal) : Prop :=
  (∀ fs, r ≠ .obj fs) ∨
  ∃ fs, r = .obj fs ∧
    (pyInt (jGetD fs "iter" .null) = none ∨
     jvalIsStrEq (jGetD fs "algo" .null) ALGO = false ∨
     (∀ s, jGetD fs "salt" .null = .str s → b64decodeNopad s = none) ∨
     (∀ s, jGetD fs "key" .null = .str s → b64decodeNopad s = none))

/-- Toy line codec for concrete instances: a nonempty line of decimal
digits denotes a number, anything else is unparseable. -/
def digitLoads (s : String) : Option JVal :=
  match s.data with
  | [] => none
  | ds => if ds.all Char.isDigit then some (.num ((digitsVal ds : Nat) : Int)) else none

/-- Concrete account row used by closed instances. -/
def rowA : JVal := .obj [("email", .str "a@x.com")]

/-- Second concrete account row used by closed instances. -/
def rowB : JVal := .obj [("email", .str "b@x.com")]

/-- Concrete two-row document used by closed instances. -/
def pairRows : List JVal := [rowA, rowB]

/-- Toy record serializer used by closed instances: a row is encoded as
its email. -/
def pairDumps (v : JVal) : String :=
  match v with
  | .obj (("email", .str s) :: _) => s
  | _ => "junkline"

/-- Toy record parser inverting `pairDumps` on `pairRows`. -/
def pairLoads (s : String) : Option JVal :=
  if s = "a@x.com" then some rowA
  else if s = "b@x.com" then some rowB
  else none

/-- Eventually consistent store double: the target row becomes visible
only on the third read. -/
def reads3rd : Nat → List JVal :=
  fun k => if k = 2 then [rowA] else []

theorem b64_alphabet_length : B64_ALPHABET.length = 64 := rfl

theorem sextetChar_ge {n : Nat} (h : 64 ≤ n) : sextetChar n = 'A' :=
  List.getD_eq_default _ _ (by rw [b64_alphabet_length]; omega)

theorem b64charVal_sextetChar_fin : ∀ n : Fin 64, b64charVal (sextetChar n.val) = some n.val := by
  decide

theorem b64charVal_sextetChar {n : Nat} (h : n < 64) : b64charVal (sextetChar n) = some n :=
  b64charVal_sextetChar_fin ⟨n, h⟩

theorem sextetChar_ne_pad_fin : ∀ n : Fin 64, sextetChar n.val ≠ '=' := by
  decide

theorem sextetChar_ne_pad (n : Nat) : sextetChar n ≠ '=' := by
  by_cases h : n < 64
  · exact sextetChar_ne_pad_fin ⟨n, h⟩
  · rw [sextetChar_ge (by omega : 64 ≤ n)]
    decide

theorem b64charVal_sextetChar_isSome (n : Nat) : (b64charVal (sextetChar n)).isSome := by
  by_cases h : n < 64
  · rw [b64charVal_sextetChar h]
    rfl
  · rw [sextetChar_ge (by omega : 64 ≤ n)]
    decide

theorem sextetChar_ascii_fin : ∀ n : Fin 64, (sextetChar n.val).toNat ≤ 127 := by
  decide

theorem sextetChar_ascii (n : Nat) : (sextetChar n).toNat ≤ 127 := by
  by_cases h : n < 64
  · exact sextetChar_ascii_fin ⟨n, h⟩
  · rw [sextetChar_ge (by omega : 64 ≤ n)]
    decide

theorem toSextets_length_mod (bs : List Nat) : (toSextets bs).length % 4 ≠ 1 := by
  induction bs using toSextets.induct with
  | case1 => simp [toSextets]
  | case2 b1 => simp [toSextets]
  | case3 b1 b2 => simp [toSextets]
  | case4 b1 b2 b3 rest ih =>
      simp only [toSextets, List.length_cons]
      omega

theorem a2b_data0 (c : Char) (rest : List Char) (left pads : Nat) {v : Nat}
    (hne : c ≠ '=') (hv : b64charVal c = some v) :
    a2bBase64 (c :: rest) 0 left pads = a2bBase64 rest 1 v 0 := by
  simp only [a2bBase64, if_neg hne, hv]

theorem a2b_data1 (c : Char) (rest : List Char) (left pads : Nat) {v : Nat}
    (hne : c ≠ '=') (hv : b64charVal c = some v) :
    a2bBase64 (c :: rest) 1 left pads =
      (a2bBase64 rest 2 (v % 16) 0).map (fun bs => (left * 4 + v / 16) :: bs) := by
  simp only [a2bBase64, if_neg hne, hv]

theorem a2b_data2 (c : Char) (rest : List Char) (left pads : Nat) {v : Nat}
    (hne : c ≠ '=') (hv : b64charVal c = some v) :
    a2bBase64 (c :: rest) 2 left pads =
      (a2bBase64 rest 3 (v % 4) 0).map (fun bs => (left * 16 + v / 4) :: bs) := by
  simp only [a2bBase64, if_neg hne, hv]

theorem a2b_data3 (c : Char) (rest : List Char) (left pads : Nat) {v : Nat}
    (hne : c ≠ '=') (hv : b64charVal c = some v) :
    a2bBase64 (c :: rest) 3 left pads =
      (a2bBase64 rest 0 0 0).map (fun bs => (left * 64 + v) :: bs) := by
  simp only [a2bBase64, if_neg hne, hv]

theorem a2b_pad_continue (rest : List Char) (qp left pads : Nat)
    (h2 : 2 ≤ qp) (h4 : ¬ 4 ≤ qp + (pads + 1)) :
    a2bBase64 ('=' :: rest) qp left pads = a2bBase64 rest qp left (pads + 1) := by
  simp only [a2bBase64, if_pos h2, if_neg h4]
  exact if_pos trivial

theorem a2b_pad_done (rest : List Char) (qp left pads : Nat)
    (h2 : 2 ≤ qp) (h4 : 4 ≤ qp + (pads + 1)) :
    a2bBase64 ('=' :: rest) qp left pads = some [] := by
  simp only [a2bBase64, if_pos h2, if_pos h4]
  exact if_pos trivial

theorem a2b_quad (x y z w : Nat) (hx : x < 64) (hy : y < 64) (hz : z < 64) (hw : w < 64)
    (rest : List Char) :
    a2bBase64 (sextetChar x :: sextetChar y :: sextetChar z :: sextetChar w :: rest) 0 0 0 =
      (a2bBase64 rest 0 0 0).map
        (fun bs => (x * 4 + y / 16) :: (y % 16 * 16 + z / 4) :: (z % 4 * 64 + w) :: bs) := by
  rw [a2b_data0 _ _ _ _ (sextetChar_ne_pad x) (b64charVal_sextetChar hx)]
  rw [a2b_data1 _ _ _ _ (sextetChar_ne_pad y) (b64charVal_sextetChar hy)]
  rw [a2b_data2 _ _ _ _ (sextetChar_ne_pad z) (b64charVal_sextetChar hz)]
  rw [a2b_data3 _ _ _ _ (sextetChar_ne_pad w) (b64charVal_sextetChar hw)]
  cases a2bBase64 rest 0 0 0 <;> rfl

theorem a2b_encode (bs : List Nat) (h : ∀ b ∈ bs, b < 256) :
    a2bBase64 ((toSextets bs).map sextetChar ++
        List.replicate ((4 - ((toSextets bs).map sextetChar).length % 4) % 4) '=') 0 0 0 =
      some bs := by
  induction bs using toSextets.induct with
  | case1 => rfl
  | case2 b1 =>
      have hb1 : b1 < 256 := h b1 (by simp)
      rw [show (toSextets [b1]).map sextetChar ++
            List.replicate ((4 - ((toSextets [b1]).map sextetChar).length % 4) % 4) '=' =
          [sextetChar (b1 / 4), sextetChar (b1 % 4 * 16), '=', '='] from rfl]
      rw [a2b_data0 _ _ _ _ (sextetChar_ne_pad _) (b64charVal_sextetChar (by omega))]
      rw [a2b_data1 _ _ _ _ (sextetChar_ne_pad _) (b64charVal_sextetChar (by omega))]
      rw [a2b_pad_continue _ 2 _ 0 (by omega) (by omega)]
      rw [a2b_pad_done _ 2 _ 1 (by omega) (by omega)]
      simp only [Option.map_some', Option.some.injEq, List.cons.injEq, and_true]
      omega
  | case3 b1 b2 =>
      have hb1 : b1 < 256 := h b1 (by simp)
      have hb2 : b2 < 256 := h b2 (by simp)
      rw [show (toSextets [b1, b2]).map sextetChar ++
            List.replicate ((4 - ((toSextets [b1, b2]).map sextetChar).length % 4) % 4) '=' =
          [sextetChar (b1 / 4), sextetChar (b1 % 4 * 16 + b2 / 16),
           sextetChar (b2 % 16 * 4), '='] from rfl]
      rw [a2b_data0 _ _ _ _ (sextetChar_ne_pad _) (b64charVal_sextetChar (by omega))]
      rw [a2b_data1 _ _ _ _ (sextetChar_ne_pad _) (b64charVal_sextetChar (by omega))]
      rw [a2b_data2 _ _ _ _ (sextetChar_ne_pad _) (b64charVal_sextetChar (by omega))]
      rw [a2b_pad_done _ 3 _ 0 (by omega) (by omega)]
      simp only [Option.map_some', Option.some.injEq, List.cons.injEq, and_true]
      omega
  | case4 b1 b2 b3 rest ih =>
      have hb1 : b1 < 256 := h b1 (by simp)
      have hb2 : b2 < 256 := h b2 (by simp)
      have hb3 : b3 < 256 := h b3 (by simp)
      have e1 : (toSextets (b1 :: b2 :: b3 :: rest)).map sextetChar =
          sextetChar (b1 / 4) :: sextetChar (b1 % 4 * 16 + b2 / 16) ::
          sextetChar (b2 % 16 * 4 + b3 / 64) :: sextetChar (b3 % 64) ::
          (toSextets rest).map sextetChar := rfl
      have e2 : ((toSextets (b1 :: b2 :: b3 :: rest)).map sextetChar).length % 4 =
          ((toSextets rest).map sextetChar).length % 4 := by
        rw [e1]
        simp only [List.length_cons]
        omega
      rw [e2, e1]
      simp only [List.cons_append]
      rw [a2b_quad _ _ _ _ (by omega) (by omega) (by omega) (by omega)]
      rw [ih (fun b hb => h b (by simp [hb]))]
      simp only [Option.map_some', Option.some.injEq, List.cons.injEq, and_true]
      omega

theorem b64_roundtrip (bs : List Nat) (h : ∀ b ∈ bs, b < 256) :
    b64decodeNopad (b64encodeNopad bs) = some bs := by
  unfold b64decodeNopad b64encodeNopad
  have hascii : ((String.mk ((toSextets bs).map sextetChar)).data.all
      (fun c => decide (c.toNat ≤ 127))) = true := by
    rw [show (String.mk ((toSextets bs).map sextetChar)).data =
          (toSextets bs).map sextetChar from rfl]
    rw [List.all_eq_true]
    intro c hc
    obtain ⟨n, _, rfl⟩ := List.mem_map.mp hc
    simpa using sextetChar_ascii n
  rw [if_pos hascii]
  rw [show (String.mk ((toSextets bs).map sextetChar)).data =
        (toSextets bs).map sextetChar from rfl]
  exact a2b_encode bs h

theorem a2b_valid_isSome : ∀ (chars : List Char) (qp left : Nat), qp < 4 →
    (qp + chars.length) % 4 ≠ 1 →
    (∀ c ∈ chars, c ≠ '=' ∧ (b64charVal c).isSome) →
    (a2bBase64 (chars ++ List.replicate ((4 - (qp + chars.length) % 4) % 4) '=') qp left 0).isSome := by
  intro chars
  induction chars with
  | nil =>
      intro qp left hqp hmod _
      interval_cases qp
      · rfl
      · simp at hmod
      · rw [show ([] : List Char) ++
              List.replicate ((4 - (2 + ([] : List Char).length) % 4) % 4) '=' =
            ['=', '='] from rfl]
        rw [a2b_pad_continue _ 2 left 0 (by omega) (by omega)]
        rw [a2b_pad_done _ 2 left 1 (by omega) (by omega)]
        rfl
      · rw [show ([] : List Char) ++
              List.replicate ((4 - (3 + ([] : List Char).length) % 4) % 4) '=' =
            ['='] from rfl]
        rw [a2b_pad_done _ 3 left 0 (by omega) (by omega)]
        rfl
  | cons c rest ih =>
      intro qp left hqp hmod hvalid
      obtain ⟨hne, hsome⟩ := hvalid c (by simp)
      obtain ⟨v, hv⟩ := Option.isSome_iff_exists.mp hsome
      have hvalid2 : ∀ x ∈ rest, x ≠ '=' ∧ (b64charVal x).isSome :=
        fun x hx => hvalid x (by simp [hx])
      simp only [List.length_cons] at hmod
      simp only [List.cons_append, List.length_cons]
      interval_cases qp
      · rw [show ((4 - (0 + (rest.length + 1)) % 4) % 4) =
              ((4 - (1 + rest.length) % 4) % 4) from by omega]
        rw [a2b_data0 _ _ _ _ hne hv]
        exact ih 1 v (by omega) (by omega) hvalid2
      · rw [show ((4 - (1 + (rest.length + 1)) % 4) % 4) =
              ((4 - (2 + rest.length) % 4) % 4) from by omega]
        rw [a2b_data1 _ _ _ _ hne hv]
        obtain ⟨bs, hbs⟩ :=
          Option.isSome_iff_exists.mp (ih 2 (v % 16) (by omega) (by omega) hvalid2)
        rw [hbs]
        rfl
      · rw [show ((4 - (2 + (rest.length + 1)) % 4) % 4) =
              ((4 - (3 + rest.length) % 4) % 4) from by omega]
        rw [a2b_data2 _ _ _ _ hne hv]
        obtain ⟨bs, hbs⟩ :=
          Option.isSome_iff_exists.mp (ih 3 (v % 4) (by omega) (by omega) hvalid2)
        rw [hbs]
        rfl
      · rw [show ((4 - (3 + (rest.length + 1)) % 4) % 4) =
              ((4 - (0 + rest.length) % 4) % 4) from by omega]
        rw [a2b_data3 _ _ _ _ hne hv]
        obtain ⟨bs, hbs⟩ :=
          Option.isSome_iff_exists.mp (ih 0 0 (by omega) (by omega) hvalid2)
        rw [hbs]
        rfl

theorem encode_decodable (bs : List Nat) : (b64decodeNopad (b64encodeNopad bs)).isSome := by
  unfold b64decodeNopad b64encodeNopad
  have hascii : ((String.mk ((toSextets bs).map sextetChar)).data.all
      (fun c => decide (c.toNat ≤ 127))) = true := by
    rw [show (String.mk ((toSextets bs).map sextetChar)).data =
          (toSextets bs).map sextetChar from rfl]
    rw [List.all_eq_true]
    intro c hc
    obtain ⟨n, _, rfl⟩ := List.mem_map.mp hc
    simpa using sextetChar_ascii n
  rw [if_pos hascii]
  rw [show (String.mk ((toSextets bs).map sextetChar)).data =
        (toSextets bs).map sextetChar from rfl]
  have hlen : ((toSextets bs).map sextetChar).length % 4 ≠ 1 := by
    rw [List.length_map]
    exact toSextets_length_mod bs
  have h0 : (0 + ((toSextets bs).map sextetChar).length) % 4 =
      ((toSextets bs).map sextetChar).length % 4 := by omega
  have := a2b_valid_isSome ((toSextets bs).map sextetChar) 0 0 (by omega)
      (by omega)
      (fun c hc => by
        obtain ⟨n, _, rfl⟩ := List.mem_map.mp hc
        exact ⟨sextetChar_ne_pad n, b64charVal_sextetChar_isSome n⟩)
  simpa [h0] using this

theorem verify_password_recompute (kdf : String → List Nat → Nat → List Nat)
    (password : String) (fs : List (String × JVal)) (n : Int) (salt_s k : String)
    (saltBytes : List Nat)
    (hiter : pyInt (jGetD fs "iter" .null) = some n)
    (halgo : jvalIsStrEq (jGetD fs "algo" .null) ALGO = true)
    (hsalt : jGetD fs "salt" .null = .str salt_s)
    (hdec : b64decodeNopad salt_s = some saltBytes)
    (hpos : 1 ≤ n)
    (hkey : jGetD fs "key" .null = .str k) :
    verify_password kdf password (.obj fs) =
      (k == b64encodeNopad (kdf password saltBytes n.toNat)) := by
  simp only [verify_password, hiter, halgo, hsalt, hdec, hkey, Bool.not_true, Bool.false_eq_true,
    if_false]
  rw [if_neg (by omega : ¬ n < 1)]

theorem verify_password_iter_bad (kdf : String → List Nat → Nat → List Nat)
    (password : String) (fs : List (String × JVal))
    (h : pyInt (jGetD fs "iter" .null) = none) :
    verify_password kdf password (.obj fs) = false := by
  simp [verify_password, h]

theorem verify_password_algo_bad (kdf : String → List Nat → Nat → List Nat)
    (password : String) (fs : List (String × JVal))
    (h : jvalIsStrEq (jGetD fs "algo" .null) ALGO = false) :
    verify_password kdf password (.obj fs) = false := by
  simp only [verify_password]
  split
  · rfl
  · simp [h]

theorem verify_password_salt_bad (kdf : String → List Nat → Nat → List Nat)
    (password : String) (fs : List (String × JVal))
    (h : ∀ s, jGetD fs "salt" .null = .str s → b64decodeNopad s = none) :
    verify_password kdf password (.obj fs) = false := by
  simp only [verify_password]
  split
  · rfl
  · split
    · rfl
    · split
      · next s hs => rw [h s hs]
      · rfl

theorem verify_password_key_bad (kdf : String → List Nat → Nat → List Nat)
    (password : String) (fs : List (String × JVal))
    (h : ∀ s, jGetD fs "key" .null = .str s → b64decodeNopad s = none) :
    verify_password kdf password (.obj fs) = false := by
  simp only [verify_password]
  split
  · rfl
  · rename_i n hiter
    split
    · rfl
    · split
      · rename_i s hs
        split
        · rfl
        · rename_i saltBytes hdecs
          split
          · rfl
          · split
            · rename_i k hk
              cases hbe : (k == b64encodeNopad (kdf password saltBytes n.toNat)) with
              | false => rfl
              | true =>
                  have hkeq : k = b64encodeNopad (kdf password saltBytes n.toNat) :=
                    eq_of_beq hbe
                  have hsome := encode_decodable (kdf password saltBytes n.toNat)
                  rw [← hkeq, h k hk] at hsome
                  simp at hsome
            · rfl
      · rfl

/-- C4: for every password and every credential record that is malformed
in any of the enumerated ways (non-dict value, missing or non-numeric
iteration count, wrong or missing algorithm tag, missing or non-string or
undecodable base64 salt or key), `_verify_password` returns `False`; the
source catches every exception these cases raise, so no error escapes. -/
theorem verify_password_malformed_false (kdf : String → List Nat → Nat → List Nat)
    (password : String) (r : JVal) (h : MalformedCred r) :
    verify_password kdf password r = false := by
  rcases h with hno | ⟨fs, rfl, hcase⟩
  · cases r with
    | obj fs => exact absurd rfl (hno fs)
    | null => rfl
    | bool b => rfl
    | num n => rfl
    | str s => rfl
    | arr xs => rfl
  · rcases hcase with h1 | h2 | h3 | h4
    · exact verify_password_iter_bad kdf password fs h1
    · exact verify_password_algo_bad kdf password fs h2
    · exact verify_password_salt_bad kdf password fs h3
    · exact verify_password_key_bad kdf password fs h4

theorem verify_password_malformed_false_witness :
    verify_password testKdf "pw"
      (.obj [("algo", .str "pbkdf2-sha256"), ("iter", .str "not-a-number"),
             ("salt", .str "AAAA"), ("key", .str "AAAA")]) = false :=
  verify_password_malformed_false testKdf "pw" _ (Or.inr ⟨_, rfl, Or.inl rfl⟩)

/-- C5: for every password and credential record whose `algo` field is not
the expected tag `"pbkdf2-sha256"`, `_verify_password` returns `False`,
regardless of the key-derivation function — in particular even when
recomputing with the record's salt and iteration count would reproduce the
stored key. -/
theorem verify_password_algo_pinning (kdf : String → List Nat → Nat → List Nat)
    (password : String) (fs : List (String × JVal))
    (h : jvalIsStrEq (jGetD fs "algo" .null) ALGO = false) :
    verify_password kdf password (.obj fs) = false :=
  verify_password_algo_bad kdf password fs h

theorem verify_password_algo_pinning_witness :
    verify_password testKdf "pw"
      (.obj [("algo", .str "pbkdf2-sha512"), ("iter", .num 1000), ("salt", .str "AAAA"),
             ("key", .str (b64encodeNopad (testKdf "pw" [0, 0, 0] 1000)))]) = false :=
  verify_password_algo_pinning testKdf "pw" _ rfl

/-- C3: for every key-derivation function, password and well-formed salt,
verifying a password against the credential record `_hash_password`
produced for it succeeds; moreover verification recomputes the derived key
from the iteration count and salt stored in the record itself (second
conjunct), not from the verifier's current defaults. -/
theorem verify_accepts_hash_output (kdf : String → List Nat → Nat → List Nat)
    (salt : List Nat) (password : String) (hsalt : ∀ b ∈ salt, b < 256) :
    verify_password kdf password (hash_password kdf salt password) = true ∧
    ∀ (fs : List (String × JVal)) (n : Int) (salt_s k : String) (saltBytes : List Nat),
      pyInt (jGetD fs "iter" .null) = some n →
      jvalIsStrEq (jGetD fs "algo" .null) ALGO = true →
      jGetD fs "salt" .null = .str salt_s →
      b64decodeNopad salt_s = some saltBytes →
      1 ≤ n →
      jGetD fs "key" .null = .str k →
      verify_password kdf password (.obj fs) =
        (k == b64encodeNopad (kdf password saltBytes n.toNat)) := by
  constructor
  · have h := verify_password_recompute kdf password
        [("algo", JVal.str ALGO), ("iter", JVal.num (ITERATIONS : Int)),
         ("salt", JVal.str (b64encodeNopad salt)),
         ("key", JVal.str (b64encodeNopad (kdf password salt ITERATIONS)))]
        (ITERATIONS : Int) (b64encodeNopad salt)
        (b64encodeNopad (kdf password salt ITERATIONS)) salt
        rfl rfl rfl (b64_roundtrip salt hsalt) (by norm_num [ITERATIONS]) rfl
    have h2 : verify_password kdf password (hash_password kdf salt password) =
        (b64encodeNopad (kdf password salt ITERATIONS) ==
         b64encodeNopad (kdf password salt ITERATIONS)) := h
    rw [h2, beq_self_eq_true]
  · intro fs n salt_s k saltBytes hiter halgo hsalt2 hdec hpos hkey
    exact verify_password_recompute kdf password fs n salt_s k saltBytes
      hiter halgo hsalt2 hdec hpos hkey

theorem verify_accepts_hash_output_witness :
    (∀ b ∈ [1, 2, 3, 4], b < 256) ∧
    verify_password testKdf "secret" (hash_password testKdf [1, 2, 3, 4] "secret") = true :=
  ⟨by decide, (verify_accepts_hash_output testKdf [1, 2, 3, 4] "secret" (by decide)).1⟩

theorem scanFind_none (e : String) (rows : List JVal)
    (h : ∀ p ∈ rows, ∃ s, pyEmailNorm p = .ok s ∧ s ≠ e) :
    scanFind e rows = .ok none := by
  induction rows with
  | nil => rfl
  | cons r rest ih =>
      obtain ⟨s, hs, hne⟩ := h r (by simp)
      simp only [scanFind, hs]
      rw [if_neg hne]
      exact ih (fun p hp => h p (by simp [hp]))

theorem scanFind_first (e : String) (pre post : List JVal) (r : JVal)
    (hpre : ∀ p ∈ pre, ∃ s, pyEmailNorm p = .ok s ∧ s ≠ e)
    (hr : pyEmailNorm r = .ok e) :
    scanFind e (pre ++ r :: post) = .ok (some r) := by
  induction pre with
  | nil => simp only [List.nil_append, scanFind, hr, if_pos]
  | cons p pre ih =>
      obtain ⟨s, hs, hne⟩ := hpre p (by simp)
      simp only [List.cons_append, scanFind, hs]
      rw [if_neg hne]
      exact ih (fun q hq => hpre q (by simp [hq]))

theorem find_go_all_miss (reads : Nat → List JVal) (e : String) :
    ∀ (fuel a : Nat) (sl : List Nat),
      (∀ j, a ≤ j → j < a + fuel → scanFind e (reads j) = .ok none) →
      find_account_go reads e a fuel sl = (.ok none, a + fuel, sl ++ List.replicate fuel SLEEP_MS) := by
  intro fuel
  induction fuel with
  | zero => intro a sl _; simp [find_account_go]
  | succ fuel ih =>
      intro a sl h
      simp only [find_account_go]
      rw [h a (le_refl a) (by omega)]
      rw [ih (a + 1) (sl ++ [SLEEP_MS]) (fun j hj1 hj2 => h j (by omega) (by omega))]
      simp only [Prod.mk.injEq]
      refine ⟨trivial, by omega, ?_⟩
      simp [List.replicate_succ, List.append_assoc]

theorem find_go_found (reads : Nat → List JVal) (e : String) (r : JVal) :
    ∀ (fuel k a : Nat) (sl : List Nat),
      k < fuel →
      (∀ j, a ≤ j → j < a + k → scanFind e (reads j) = .ok none) →
      scanFind e (reads (a + k)) = .ok (some r) →
      find_account_go reads e a fuel sl = (.ok (some r), a + k + 1, sl ++ List.replicate k SLEEP_MS) := by
  intro fuel
  induction fuel with
  | zero => intro k a sl hk; exact absurd hk (Nat.not_lt_zero k)
  | succ fuel ih =>
      intro k a sl hk hmiss hfound
      cases k with
      | zero =>
          simp only [find_account_go]
          rw [show a + 0 = a from rfl] at hfound
          rw [hfound]
          simp
      | succ k2 =>
          simp only [find_account_go]
          rw [hmiss a (le_refl a) (by omega)]
          rw [ih k2 (a + 1) (sl ++ [SLEEP_MS]) (by omega)
                (fun j h1 h2 => hmiss j (by omega) (by omega))
                (by rw [show a + 1 + k2 = a + (k2 + 1) by omega]; exact hfound)]
          simp only [Prod.mk.injEq]
          refine ⟨trivial, by omega, ?_⟩
          simp [List.replicate_succ, List.append_assoc]

/-- C8: `find_account` performs at most 3 fetch-and-scan attempts with a
fixed 600 ms (0.6 s) sleep after each miss: if every one of the 3 attempts
misses it returns absent having performed exactly 3 attempts; if the
earliest matching attempt is attempt `k` it returns that attempt's first
case-insensitively matching record after exactly `k + 1` attempts (so a
record visible only on the 3rd read is still returned); and the scan of an
attempt returns the first record of the fetched list whose normalized
email matches. -/
theorem find_account_retry_semantics (reads : Nat → List JVal) (email : String)
    (r : JVal) (k : Nat) :
    ((∀ j, j < 3 → scanFind (pyLower (pyStrip email)) (reads j) = .ok none) →
       find_account reads email = (.ok none, 3, List.replicate 3 600)) ∧
    (k < 3 →
       (∀ j, j < k → scanFind (pyLower (pyStrip email)) (reads j) = .ok none) →
       scanFind (pyLower (pyStrip email)) (reads k) = .ok (some r) →
       find_account reads email = (.ok (some r), k + 1, List.replicate k 600)) ∧
    (∀ (pre post : List JVal),
       (∀ p ∈ pre, ∃ s, pyEmailNorm p = .ok s ∧ s ≠ pyLower (pyStrip email)) →
       pyEmailNorm r = .ok (pyLower (pyStrip email)) →
       scanFind (pyLower (pyStrip email)) (pre ++ r :: post) = .ok (some r)) := by
  refine ⟨?_, ?_, ?_⟩
  · intro h
    have hg := find_go_all_miss reads (pyLower (pyStrip email)) 3 0 []
        (fun j hj1 hj2 => h j (by omega))
    simpa [find_account, SLEEP_MS] using hg
  · intro hk hmiss hfound
    have hg := find_go_found reads (pyLower (pyStrip email)) r 3 k 0 [] hk
        (fun j hj1 hj2 => hmiss j (by omega)) (by simpa using hfound)
    simpa [find_account, SLEEP_MS] using hg
  · intro pre post hpre hr
    exact scanFind_first _ pre post r hpre hr

theorem find_account_retry_semantics_witness :
    find_account reads3rd "A@x.com " = (.ok (some rowA), 3, [600, 600]) := by
  have h := (find_account_retry_semantics reads3rd "A@x.com " rowA 2).2.1 (by omega)
      (fun j hj => by interval_cases j <;> rfl) rfl
  simpa using h

/-- C2: `verify_login` over a fixed document returns exactly
`(False, False, "")` both when no record's email matches
(case-insensitively, after normalization) and when the matching record's
password fails verification — the two denial values are literally equal
(anti-enumeration) — and returns
`(True, bool(r["activated"]), r["product_key"])` when the matching record
verifies. -/
theorem verify_login_denial_and_success (doc : List JVal)
    (kdf : String → List Nat → Nat → List Nat) (email password : String)
    (fs : List (String × JVal)) :
    ((∀ p ∈ doc, ∃ s, pyEmailNorm p = .ok s ∧ s ≠ pyLower (pyStrip email)) →
       verify_login (fun _ => doc) kdf email password = .ok (false, false, .str "")) ∧
    (∀ (pre post : List JVal),
       doc = pre ++ (.obj fs) :: post →
       (∀ p ∈ pre, ∃ s, pyEmailNorm p = .ok s ∧ s ≠ pyLower (pyStrip email)) →
       pyEmailNorm (.obj fs) = .ok (pyLower (pyStrip email)) →
       ((verify_password kdf password (jGetD fs "password" (.obj [])) = false →
           verify_login (fun _ => doc) kdf email password = .ok (false, false, .str "")) ∧
        (verify_password kdf password (jGetD fs "password" (.obj [])) = true →
           verify_login (fun _ => doc) kdf email password =
             .ok (true, pyTruthy (jGetD fs "activated" (.bool false)),
                  jGetD fs "product_key" (.str ""))))) := by
  constructor
  · intro h
    have hscan : scanFind (pyLower (pyStrip email)) doc = .ok none := scanFind_none _ doc h
    have hf := find_go_all_miss (fun _ => doc) (pyLower (pyStrip email)) 3 0 []
        (fun j _ _ => hscan)
    simp only [verify_login, find_account, hf]
  · intro pre post hdoc hpre hr
    have hscan : scanFind (pyLower (pyStrip email)) doc = .ok (some (.obj fs)) := by
      rw [hdoc]; exact scanFind_first _ pre post _ hpre hr
    have hf := find_go_found (fun _ => doc) (pyLower (pyStrip email)) (.obj fs) 3 0 0 []
        (by omega) (fun j h1 h2 => absurd h1 (by omega)) hscan
    constructor
    · intro hv
      simp only [verify_login, find_account, hf, hv]
      rfl
    · intro hv
      simp only [verify_login, find_account, hf, hv]
      rfl

theorem verify_login_denial_witness :
    verify_login (fun _ => []) testKdf "bob@x.com" "pw" = .ok (false, false, .str "") :=
  (verify_login_denial_and_success [] testKdf "bob@x.com" "pw" []).1 (by simp)

theorem jGetD_jSetKey_same (fs : List (String × JVal)) (k : String) (v d : JVal) :
    jGetD (jSetKey fs k v) k d = v := by
  induction fs with
  | nil => simp [jSetKey, jGetD]
  | cons p rest ih =>
      obtain ⟨k1, w⟩ := p
      by_cases hk : k1 = k
      · simp [jSetKey, hk, jGetD]
      · simp [jSetKey, hk, jGetD, ih]

theorem jGetD_jSetKey_other (fs : List (String × JVal)) (k k2 : String) (v d : JVal)
    (hne : k2 ≠ k) : jGetD (jSetKey fs k v) k2 d = jGetD fs k2 d := by
  have hne2 : ¬(k = k2) := fun hh => hne hh.symm
  induction fs with
  | nil => simp [jSetKey, jGetD, hne2]
  | cons p rest ih =>
      obtain ⟨k1, w⟩ := p
      by_cases hk : k1 = k
      · subst hk
        simp [jSetKey, jGetD, hne2]
      · by_cases hk2 : k1 = k2
        · subst hk2
          simp [jSetKey, jGetD, hk]
        · simp [jSetKey, jGetD, hk, hk2, ih]

theorem set_activated_rows_miss (e pk : String) (rows : List JVal)
    (h : ∀ r ∈ rows, ∃ s, pyEmailLower r = .ok s ∧ s ≠ e) :
    set_activated_rows e pk rows = .ok rows := by
  induction rows with
  | nil => rfl
  | cons r rest ih =>
      obtain ⟨s, hs, hne⟩ := h r (by simp)
      simp only [set_activated_rows, hs]
      rw [if_neg hne, ih (fun q hq => h q (by simp [hq]))]

theorem set_activated_rows_hit (e pk : String) (pre post : List JVal) (r : JVal)
    (hpre : ∀ p ∈ pre, ∃ s, pyEmailLower p = .ok s ∧ s ≠ e)
    (hr : pyEmailLower r = .ok e) :
    set_activated_rows e pk (pre ++ r :: post) = .ok (pre ++ activateRecord r pk :: post) := by
  induction pre with
  | nil =>
      simp only [List.nil_append, set_activated_rows, hr]
      simp
  | cons p pre ih =>
      obtain ⟨s, hs, hne⟩ := hpre p (by simp)
      simp only [List.cons_append, set_activated_rows, hs]
      rw [if_neg hne]
      simp only [List.append_eq]
      rw [ih (fun q hq => hpre q (by simp [hq]))]

/-- C9: `set_activated` on a document with no (case-insensitively)
matching record still performs the write with the very same records and
raises nothing (first conjunct: the `.ok` value is exactly the row list
handed to `_write_jsonl`); on a document whose first match is some record,
only that record is replaced — rows before and after it are untouched —
and within it only the `activated` and `product_key` fields change
(remaining conjuncts). -/
theorem set_activated_miss_noop_and_frame (rows : List JVal) (email pk : String)
    (fs : List (String × JVal)) :
    ((∀ r ∈ rows, ∃ s, pyEmailLower r = .ok s ∧ s ≠ pyLower (pyStrip email)) →
       set_activated rows email pk = .ok rows) ∧
    (∀ (pre post : List JVal),
       rows = pre ++ (.obj fs) :: post →
       (∀ p ∈ pre, ∃ s, pyEmailLower p = .ok s ∧ s ≠ pyLower (pyStrip email)) →
       pyEmailLower (.obj fs) = .ok (pyLower (pyStrip email)) →
       set_activated rows email pk = .ok (pre ++ activateRecord (.obj fs) pk :: post)) ∧
    (activateRecord (.obj fs) pk =
       .obj (jSetKey (jSetKey fs "activated" (.bool true)) "product_key" (.str pk))) ∧
    (∀ (k : String) (d : JVal), k ≠ "activated" → k ≠ "product_key" →
       jGetD (jSetKey (jSetKey fs "activated" (.bool true)) "product_key" (.str pk)) k d =
         jGetD fs k d) ∧
    (∀ d : JVal,
       jGetD (jSetKey (jSetKey fs "activated" (.bool true)) "product_key" (.str pk))
         "activated" d = .bool true ∧
       jGetD (jSetKey (jSetKey fs "activated" (.bool true)) "product_key" (.str pk))
         "product_key" d = .str pk) := by
  refine ⟨?_, ?_, rfl, ?_, ?_⟩
  · intro h
    exact set_activated_rows_miss _ pk rows h
  · intro pre post hrows hpre hr
    subst hrows
    exact set_activated_rows_hit _ pk pre post _ hpre hr
  · intro k d hk1 hk2
    rw [jGetD_jSetKey_other _ _ _ _ _ hk2, jGetD_jSetKey_other _ _ _ _ _ hk1]
  · intro d
    constructor
    · rw [jGetD_jSetKey_other _ _ _ _ _ (by decide), jGetD_jSetKey_same]
    · rw [jGetD_jSetKey_same]

theorem set_activated_miss_noop_witness :
    set_activated [.obj [("email", .str "bob@x.com"), ("activated", .bool false)]]
        "nobody@x.com" "KEY" =
      .ok [.obj [("email", .str "bob@x.com"), ("activated", .bool false)]] :=
  (set_activated_miss_noop_and_frame _ "nobody@x.com" "KEY" []).1
    (by
      intro r hr
      simp only [List.mem_singleton] at hr
      subst hr
      exact ⟨"bob@x.com", rfl, by decide⟩)

/-- C1 as stated is false on the code: `create_account` returns a single
boolean, and a duplicate-email rejection and a failed remote write are the
SAME result value `False` — here shown on two concrete calls (a duplicate
against a one-row document with a successful store, and a fresh email
against an empty document whose PUT fails) whose entire results, document
effect included, are equal. -/
theorem create_account_dup_vs_write_error_same_result :
    create_account [.obj [("email", .str "a@x.com")]] true none "a@x.com" "pw1" none false
        testKdf [1, 2] "ts" = .ok (false, none) ∧
    create_account [] false none "b@x.com" "pw2" none false
        testKdf [1, 2] "ts" = .ok (false, none) ∧
    create_account [.obj [("email", .str "a@x.com")]] true none "a@x.com" "pw1" none false
        testKdf [1, 2] "ts" =
      create_account [] false none "b@x.com" "pw2" none false
        testKdf [1, 2] "ts" :=
  ⟨rfl, rfl, rfl⟩

/-- C1 amended: `create_account`'s outcomes are the booleans of the
source, not three distinct values — `True` exactly when the duplicate
check passes and the remote write succeeds; `False` both for a duplicate
email and for a failed remote write, so those two outcomes are not
distinguishable in the result; a write failure is never reported as
created (and the failed PUT leaves the remote document unchanged). -/
theorem create_account_bool_outcomes (read1 : List JVal) (writeOk : Bool)
    (read2 : Option (List JVal)) (email password : String) (pk : Option String)
    (act : Bool) (kdf : String → List Nat → Nat → List Nat) (salt : List Nat)
    (ts : String) :
    (anyDupLower (pyLower (pyStrip email)) read1 = .ok true →
       create_account read1 writeOk read2 email password pk act kdf salt ts =
         .ok (false, none)) ∧
    (anyDupLower (pyLower (pyStrip email)) read1 = .ok false → writeOk = false →
       create_account read1 writeOk read2 email password pk act kdf salt ts =
         .ok (false, none)) ∧
    (anyDupLower (pyLower (pyStrip email)) read1 = .ok false → writeOk = true →
       create_account read1 writeOk read2 email password pk act kdf salt ts =
         .ok (true, some (read1 ++
           [mkNewRecord (pyLower (pyStrip email)) kdf salt password ts pk act]))) := by
  refine ⟨?_, ?_, ?_⟩
  · intro hdup
    simp only [create_account, hdup]
  · intro hdup hw
    subst hw
    simp only [create_account, hdup, Bool.false_eq_true, if_false]
  · intro hdup hw
    subst hw
    simp only [create_account, hdup, if_true]

theorem create_account_bool_outcomes_witness :
    create_account [.obj [("email", .str "a@x.com")]] false none "a@x.com" "pw" none false
        testKdf [3, 4] "ts" = .ok (false, none) :=
  (create_account_bool_outcomes [.obj [("email", .str "a@x.com")]] false none "a@x.com"
      "pw" none false testKdf [3, 4] "ts").1 rfl

/-- C10: once the duplicate check has passed and the document write has
succeeded, `create_account` returns `True` whatever its post-write
confirmation read does — the conclusion holds for every `read2`, including
`none` (the read raised) and row lists in which the new record is absent —
because the `found` flag of that read is computed and discarded. -/
theorem create_account_ignores_postread (read1 : List JVal)
    (read2 : Option (List JVal)) (email password : String) (pk : Option String)
    (act : Bool) (kdf : String → List Nat → Nat → List Nat) (salt : List Nat)
    (ts : String)
    (hdup : anyDupLower (pyLower (pyStrip email)) read1 = .ok false) :
    create_account read1 true read2 email password pk act kdf salt ts =
      .ok (true, some (read1 ++
        [mkNewRecord (pyLower (pyStrip email)) kdf salt password ts pk act])) := by
  simp only [create_account, hdup, if_true]

theorem create_account_ignores_postread_witness :
    create_account [] (true : Bool) (some []) "c@x.com" "pw" none false testKdf [5] "ts" =
      .ok (true, some [mkNewRecord "c@x.com" testKdf [5] "pw" "ts" none false]) := by
  have h := create_account_ignores_postread [] (some []) "c@x.com" "pw" none false
      testKdf [5] "ts" rfl
  simpa using h

theorem mk_data (s : String) : String.mk s.data = s := by
  cases s; rfl

theorem data_ne_nil_of_ne_empty (s : String) (h : s ≠ "") : s.data ≠ [] := by
  intro hd
  apply h
  cases s
  simp only at hd
  subst hd
  rfl

theorem all_reverse_space (l : List Char) (h : l.all isPySpace = true) :
    l.reverse.all isPySpace = true := by
  rw [List.all_eq_true] at h ⊢
  intro x hx
  exact h x (List.mem_reverse.mp hx)

theorem pyStripL_nil_of_all (l : List Char) (h : l.all isPySpace = true) :
    pyStripL l = [] := by
  unfold pyStripL
  have h1 : l.dropWhile isPySpace = [] :=
    List.dropWhile_eq_nil_iff.mpr (by simpa [List.all_eq_true] using h)
  rw [h1]
  rfl

theorem all_of_pyStripL_nil (l : List Char) (h : pyStripL l = []) :
    l.all isPySpace = true := by
  unfold pyStripL at h
  rw [List.reverse_eq_nil_iff] at h
  have h3 : ∀ x ∈ (l.dropWhile isPySpace).reverse, isPySpace x :=
    List.dropWhile_eq_nil_iff.mp h
  have h4 : ∀ x ∈ l.dropWhile isPySpace, isPySpace x :=
    fun x hx => h3 x (List.mem_reverse.mpr hx)
  rw [List.all_eq_true]
  intro x hx
  rw [← List.takeWhile_append_dropWhile (p := isPySpace) (l := l)] at hx
  rcases List.mem_append.mp hx with hx2 | hx2
  · exact List.mem_takeWhile_imp hx2
  · exact h4 x hx2

theorem pyStrip_eq_empty_iff (s : String) : pyStrip s = "" ↔ s.data.all isPySpace = true := by
  unfold pyStrip
  constructor
  · intro h
    exact all_of_pyStripL_nil _ (congrArg String.data h)
  · intro h
    rw [pyStripL_nil_of_all _ h]

theorem splitLinesAux_all_space : ∀ (cs acc : List Char), cs.all isPySpace = true →
    acc.all isPySpace = true → ∀ l ∈ splitLinesAux cs acc, l.all isPySpace = true := by
  intro cs acc
  induction cs, acc using splitLinesAux.induct with
  | case1 acc h =>
      intro _ _ l hl
      simp only [splitLinesAux, if_pos h] at hl
      simp at hl
  | case2 acc h =>
      intro _ hacc l hl
      simp only [splitLinesAux, if_neg h, List.mem_singleton] at hl
      subst hl
      exact all_reverse_space _ hacc
  | case3 c acc hbrk =>
      intro _ hacc l hl
      simp only [splitLinesAux, if_pos hbrk, List.mem_singleton] at hl
      subst hl
      exact all_reverse_space _ hacc
  | case4 c acc hnbrk =>
      intro hcs hacc l hl
      simp only [List.all_cons, Bool.and_eq_true] at hcs
      simp only [splitLinesAux, if_neg hnbrk, List.mem_singleton] at hl
      subst hl
      apply all_reverse_space
      simp only [List.all_cons, Bool.and_eq_true]
      exact ⟨hcs.1, hacc⟩
  | case5 rest acc hbrk ih =>
      intro hcs hacc l hl
      simp only [List.all_cons, Bool.and_eq_true] at hcs
      rw [show splitLinesAux ('\x0d' :: '\n' :: rest) acc =
            acc.reverse :: splitLinesAux rest [] from rfl] at hl
      rcases List.mem_cons.mp hl with rfl | hl2
      · exact all_reverse_space _ hacc
      · exact ih hcs.2.2 rfl l hl2
  | case6 c2 rest acc hne2 hbrk ih =>
      intro hcs hacc l hl
      simp only [List.all_cons, Bool.and_eq_true] at hcs
      simp only [splitLinesAux, if_true] at hl
      rw [if_pos hbrk, if_neg hne2] at hl
      rcases List.mem_cons.mp hl with rfl | hl2
      · exact all_reverse_space _ hacc
      · refine ih ?_ rfl l hl2
        simp only [List.all_cons, Bool.and_eq_true]
        exact ⟨hcs.2.1, hcs.2.2⟩
  | case7 c c2 rest acc hbrk hner ih =>
      intro hcs hacc l hl
      simp only [List.all_cons, Bool.and_eq_true] at hcs
      simp only [splitLinesAux] at hl
      rw [if_pos hbrk, if_neg hner] at hl
      rcases List.mem_cons.mp hl with rfl | hl2
      · exact all_reverse_space _ hacc
      · refine ih ?_ rfl l hl2
        simp only [List.all_cons, Bool.and_eq_true]
        exact ⟨hcs.2.1, hcs.2.2⟩
  | case8 c c2 rest acc hnbrk ih =>
      intro hcs hacc l hl
      simp only [List.all_cons, Bool.and_eq_true] at hcs
      simp only [splitLinesAux] at hl
      rw [if_neg hnbrk] at hl
      refine ih ?_ ?_ l hl
      · simp only [List.all_cons, Bool.and_eq_true]
        exact ⟨hcs.2.1, hcs.2.2⟩
      · simp only [List.all_cons, Bool.and_eq_true]
        exact ⟨hcs.1, hacc⟩

theorem splitLinesAux_no_break : ∀ (cs acc : List Char),
    cs.all (fun c => !isLineBreak c) = true → acc.reverse ++ cs ≠ [] →
    splitLinesAux cs acc = [acc.reverse ++ cs] := by
  intro cs acc
  induction cs, acc using splitLinesAux.induct with
  | case1 acc h =>
      intro _ hne
      exfalso
      apply hne
      rw [List.isEmpty_iff] at h
      simp [h]
  | case2 acc h =>
      intro _ _
      simp only [splitLinesAux, if_neg h, List.append_nil]
  | case3 c acc hbrk =>
      intro hcs _
      exfalso
      simp only [List.all_cons, Bool.and_eq_true] at hcs
      rw [hbrk] at hcs
      simp at hcs
  | case4 c acc hnbrk =>
      intro _ _
      simp only [splitLinesAux, if_neg hnbrk]
      simp
  | case5 rest acc hbrk ih =>
      intro hcs _
      exfalso
      simp only [List.all_cons, Bool.and_eq_true] at hcs
      rw [hbrk] at hcs
      simp at hcs
  | case6 c2 rest acc hne2 hbrk ih =>
      intro hcs _
      exfalso
      simp only [List.all_cons, Bool.and_eq_true] at hcs
      rw [hbrk] at hcs
      simp at hcs
  | case7 c c2 rest acc hbrk hner ih =>
      intro hcs _
      exfalso
      simp only [List.all_cons, Bool.and_eq_true] at hcs
      rw [hbrk] at hcs
      simp at hcs
  | case8 c c2 rest acc hnbrk ih =>
      intro hcs hne
      simp only [List.all_cons, Bool.and_eq_true] at hcs
      simp only [splitLinesAux]
      rw [if_neg hnbrk]
      rw [ih (by simp only [List.all_cons, Bool.and_eq_true]; exact ⟨hcs.2.1, hcs.2.2⟩)
            (by simp)]
      simp

theorem splitLinesAux_boundary : ∀ (cs : List Char) (acc ds : List Char),
    cs.all (fun c => !isLineBreak c) = true →
    splitLinesAux (cs ++ '\n' :: ds) acc = (acc.reverse ++ cs) :: splitLinesAux ds [] := by
  intro cs
  induction cs with
  | nil =>
      intro acc ds _
      cases ds with
      | nil =>
          rw [show splitLinesAux ([] ++ ['\n']) acc = [acc.reverse] from rfl]
          simp [splitLinesAux]
      | cons d ds2 =>
          rw [show splitLinesAux ([] ++ '\n' :: d :: ds2) acc =
                acc.reverse :: splitLinesAux (d :: ds2) [] from rfl]
          simp
  | cons c cs ih =>
      intro acc ds hcs
      simp only [List.all_cons, Bool.and_eq_true] at hcs
      have hx : ∃ c2 rest, cs ++ '\n' :: ds = c2 :: rest := by
        cases cs with
        | nil => exact ⟨'\n', ds, rfl⟩
        | cons a b => exact ⟨a, b ++ '\n' :: ds, by simp⟩
      obtain ⟨c2, rest, hx⟩ := hx
      have hgoal : splitLinesAux (c :: cs ++ '\n' :: ds) acc =
          splitLinesAux (cs ++ '\n' :: ds) (c :: acc) := by
        rw [List.cons_append, hx]
        simp only [splitLinesAux]
        rw [if_neg (by simp only [Bool.not_eq_true'] at hcs; simp [hcs.1])]
      rw [hgoal, ih (c :: acc) ds hcs.2]
      simp

theorem pySplitlines_joinLines : ∀ (lines : List String),
    (∀ l ∈ lines, l ≠ "" ∧ l.data.all (fun c => !isLineBreak c) = true) →
    pySplitlines (joinLines lines) = lines := by
  intro lines
  induction lines with
  | nil => intro _; rfl
  | cons s rest ih =>
      intro h
      cases rest with
      | nil =>
          obtain ⟨hne, hnb⟩ := h s (by simp)
          show pySplitlines (joinLines [s]) = [s]
          rw [show joinLines [s] = s from rfl]
          unfold pySplitlines
          rw [splitLinesAux_no_break s.data [] hnb
                (by simpa using data_ne_nil_of_ne_empty s hne)]
          simp [mk_data]
      | cons s2 rest2 =>
          obtain ⟨hne, hnb⟩ := h s (by simp)
          show pySplitlines (joinLines (s :: s2 :: rest2)) = s :: s2 :: rest2
          rw [show joinLines (s :: s2 :: rest2) = s ++ "\n" ++ joinLines (s2 :: rest2) from rfl]
          unfold pySplitlines
          have hdata : (s ++ "\n" ++ joinLines (s2 :: rest2)).data =
              s.data ++ '\n' :: (joinLines (s2 :: rest2)).data := by
            rw [String.data_append, String.data_append]
            simp [show ("\n" : String).data = ['\n'] from rfl]
          rw [hdata, splitLinesAux_boundary s.data [] _ hnb]
          simp only [List.nil_append, List.map_cons, mk_data]
          congr 1
          exact ih (fun l hl => h l (by simp [hl]))

theorem readLines_eq_filterMap (loads : String → Option JVal) : ∀ lines : List String,
    readLines loads lines =
      ((lines.filter fun l => !(pyStrip l == "")).filterMap loads) := by
  intro lines
  induction lines with
  | nil => rfl
  | cons line rest ih =>
      by_cases h : pyStrip line = ""
      · simp [readLines, h, ih]
      · rcases hl : loads line with _ | v
        · simp [readLines, h, hl, ih]
        · simp [readLines, h, hl, ih]

theorem readLines_map (loads : String → Option JVal) (dumps : JVal → String) :
    ∀ rows : List JVal,
      (∀ r ∈ rows, loads (dumps r) = some r) →
      (∀ r ∈ rows, pyStrip (dumps r) ≠ "") →
      readLines loads (rows.map dumps) = rows := by
  intro rows
  induction rows with
  | nil => intro _ _; rfl
  | cons r rest ih =>
      intro h1 h3
      simp only [List.map_cons, readLines]
      rw [if_neg (h3 r (by simp)), h1 r (by simp)]
      rw [ih (fun q hq => h1 q (by simp [hq])) (fun q hq => h3 q (by simp [hq]))]

/-- C7: parsing a document skips every line whose strip is empty and every
line the line codec cannot parse, and returns exactly the parsed records
of the remaining lines, never failing (first conjunct, for an arbitrary
line codec and text); in particular a document of 5 valid lines, one
whitespace-only line and 1 line of garbage yields exactly the 5 records
(second conjunct). -/
theorem read_jsonl_skips_bad_lines (loads : String → Option JVal) (text : String) :
    read_jsonl_text loads text =
      ((pySplitlines text).filter fun l => !(pyStrip l == "")).filterMap loads ∧
    read_jsonl_text digitLoads "1\n2\n3\n \n4\n5\n!!garbage!!" =
      [.num 1, .num 2, .num 3, .num 4, .num 5] := by
  constructor
  · by_cases h0 : text = ""
    · subst h0
      rfl
    · by_cases h1 : pyStrip text = ""
      · have hall : text.data.all isPySpace = true := (pyStrip_eq_empty_iff text).mp h1
        have hfil : ((pySplitlines text).filter fun l => !(pyStrip l == "")) = [] := by
          apply List.filter_eq_nil_iff.mpr
          intro l hl
          obtain ⟨l0, hl0, rfl⟩ := List.mem_map.mp hl
          have hsp := splitLinesAux_all_space text.data [] hall rfl l0 hl0
          have : pyStrip (String.mk l0) = "" := by
            unfold pyStrip
            rw [show (String.mk l0).data = l0 from rfl, pyStripL_nil_of_all l0 hsp]
          simp [this]
        rw [hfil]
        simp [read_jsonl_text, h0, h1]
      · simp only [read_jsonl_text, if_neg h0, if_neg h1]
        exact readLines_eq_filterMap loads (pySplitlines text)
  · rfl

/-- C6: the document-level JSONL round trip of the source: writing any row
list with `_write_jsonl` and reading the text back with `_read_jsonl`
returns exactly the same rows, provided the line codec round-trips each
row (`json.loads(json.dumps(r)) == r`), each serialized row is free of
embedded line-boundary characters, and no serialized row is
whitespace-only — the guarantees `json.dumps` gives for JSON-representable
records. -/
theorem jsonl_roundtrip (dumps : JVal → String) (loads : String → Option JVal)
    (rows : List JVal)
    (h1 : ∀ r ∈ rows, loads (dumps r) = some r)
    (h2 : ∀ r ∈ rows, (dumps r).data.all (fun c => !isLineBreak c) = true)
    (h3 : ∀ r ∈ rows, pyStrip (dumps r) ≠ "") :
    read_jsonl_text loads (write_jsonl_text dumps rows) = rows := by
  cases rows with
  | nil => rfl
  | cons r0 rest =>
      have hlines : pySplitlines (write_jsonl_text dumps (r0 :: rest)) =
          (r0 :: rest).map dumps := by
        unfold write_jsonl_text
        apply pySplitlines_joinLines
        intro l hl
        obtain ⟨r, hr, rfl⟩ := List.mem_map.mp hl
        refine ⟨fun he => h3 r hr ?_, h2 r hr⟩
        rw [he]
        rfl
      have h0 : write_jsonl_text dumps (r0 :: rest) ≠ "" := by
        intro he
        rw [he] at hlines
        rw [show pySplitlines "" = [] from rfl] at hlines
        simp at hlines
      have hstrip : pyStrip (write_jsonl_text dumps (r0 :: rest)) ≠ "" := by
        intro he
        have hall := (pyStrip_eq_empty_iff _).mp he
        have hmem : (dumps r0) ∈ pySplitlines (write_jsonl_text dumps (r0 :: rest)) := by
          rw [hlines]
          simp
        obtain ⟨l0, hl0, hm⟩ := List.mem_map.mp hmem
        apply h3 r0 (by simp)
        rw [← hm]
        unfold pyStrip
        rw [show (String.mk l0).data = l0 from rfl,
            pyStripL_nil_of_all l0 (splitLinesAux_all_space _ [] hall rfl l0 hl0)]
      unfold read_jsonl_text
      rw [if_neg h0, if_neg hstrip, hlines]
      exact readLines_map loads dumps (r0 :: rest) h1 h3

theorem jsonl_roundtrip_witness :
    read_jsonl_text pairLoads (write_jsonl_text pairDumps pairRows) = pairRows := by
  apply jsonl_roundtrip
  · intro r hr
    rcases List.mem_cons.mp hr with rfl | hr2
    · rfl
    · rcases List.mem_cons.mp hr2 with rfl | h3
      · rfl
      · simp at h3
  · intro r hr
    rcases List.mem_cons.mp hr with rfl | hr2
    · decide
    · rcases List.mem_cons.mp hr2 with rfl | h3
      · decide
      · simp at h3
  · intro r hr
    rcases List.mem_cons.mp hr with rfl | hr2
    · decide
    · rcases List.mem_cons.mp hr2 with rfl | h3
      · decide
      · simp at h3
